import Mathlib

/-
Shallow embedding of `src/youtube_playlist_to_text.py` (YoutubeTranscriber).

Modelling conventions:
* External effects become explicit parameters or recorded observations:
  the speech-to-text call is a function from the attempt index to its outcome,
  the filesystem's transcript directory is a map from file name to content,
  `time.sleep` calls are recorded in a list instead of being performed,
  and console printing is dropped (presentation only).
* Python integers are `Nat`/`Int`; Python `None` is `Option.none`.
* Python truthiness of a string (`if text:`) is: not `None` and not `""`.
-/

namespace YoutubeTranscriber

/-- One entry of the playlist JSON produced by the external downloader in
metadata-only mode (`yt-dlp --flat-playlist -J`).  The `title` field is used
only for the printed preview, never for the returned list. -/
structure PlaylistEntry where
  id : String
  title : Option String

/-- The JSON object `data` parsed from the downloader's stdout:
`entries` models `data.get("entries", [])` (absent or null key becomes `[]`),
`id` models `data.get("id")`. -/
structure PlaylistData where
  entries : List PlaylistEntry
  id : Option String

/-- Python truthiness of `data.get("id")`: the key is present and its string
value is non-empty. -/
def id_truthy : Option String → Bool
  | none => false
  | some s => !(s == "")

/-- The canonical watch URL built in `get_video_list`:
`f"https://www.youtube.com/watch?v={entry['id']}"`. -/
def watch_url (videoId : String) : String :=
  "https://www.youtube.com/watch?v=" ++ videoId

/-- `get_video_list` (src lines 22-57), after the subprocess succeeded and its
stdout parsed into `data`.  `if not entries and data.get("id"): return [url]`;
otherwise the entry identifiers are rewritten into canonical watch URLs.
(The failure path `subprocess.CalledProcessError → sys.exit(1)` aborts the
process and is outside this pure model.) -/
def get_video_list (url : String) (data : PlaylistData) : List String :=
  if data.entries.isEmpty && id_truthy data.id then
    [url]
  else
    data.entries.map (fun entry => watch_url entry.id)

/-- Default `max_size_mb` argument of `check_file_size`. -/
def default_max_size_mb : Nat := 25

/-- `check_file_size` (src lines 59-68).  The source computes
`size_mb = file_path.stat().st_size / (1024 * 1024)` in IEEE-754 double
arithmetic and tests `size_mb > max_size_mb`.  Division of an integer below
2^53 by the power of two 2^20 is exact in double precision, so that float
comparison coincides with the integer comparison on byte counts used here. -/
def check_file_size (st_size : Nat) (max_size_mb : Nat) : Bool :=
  if st_size > max_size_mb * 1024 * 1024 then false else true

/-- A local audio file: name and byte size (`stat().st_size`). -/
structure Mp3File where
  name : String
  st_size : Nat

/-- `download_audio_if_needed` (src lines 70-107).
`downloader_ok` is the exit status of the `yt-dlp` subprocess (`false` models
`subprocess.CalledProcessError`); `new_files` is the set difference
`after_files - before_files`, with `set.pop()` modelled as taking the head.
The first component is the returned value; the second records the result of
the `check_file_size` call when it happens — the source calls it, prints, and
ignores the result, returning the new file regardless. -/
def download_audio_if_needed (downloader_ok : Bool) (new_files : List Mp3File) :
    Option Mp3File × Option Bool :=
  if downloader_ok then
    match new_files with
    | new_file :: _ =>
      (some new_file, some (check_file_size new_file.st_size default_max_size_mb))
    | [] => (none, none)
  else
    (none, none)

/-- Outcome of one call to `client.audio.transcriptions.create`:
either a transcript text, a `RateLimitError` (whose flag records whether
`"insufficient_quota" in str(e).lower()`), or any other `Exception`. -/
inductive APIResult where
  | success (text : String)
  | rateLimit (insufficient_quota : Bool)
  | error
deriving DecidableEq

/-- Observable behaviour of one `transcribe_audio` call: the returned value,
the number of API calls made, and the seconds passed to each `time.sleep`
(in order). -/
structure TranscribeTrace where
  result : Option String
  attempts : Nat
  sleeps : List Nat
deriving DecidableEq

/-- Default `max_retries` argument of `transcribe_audio`. -/
def default_max_retries : Nat := 3

/-- The `for attempt in range(max_retries)` loop of `transcribe_audio`
(src lines 113-151), as recursion on `remaining`, the number of loop
iterations still available; the loop maintains
`remaining + attempt = max_retries`.  Branches, in source order:
* success: return `transcript.text` (word count is only printed);
* `RateLimitError` with `insufficient_quota`: return `None` at once;
* other `RateLimitError`: if `attempt < max_retries - 1`, sleep
  `(attempt + 1) * 60` seconds and continue, else return `None`;
* other exception: if `attempt < max_retries - 1`, sleep 5 seconds and
  continue, else return `None`.
Falling out of the loop (`max_retries = 0`) returns `None`. -/
def transcribe_loop (client : Nat → APIResult) (max_retries : Nat) :
    Nat → Nat → TranscribeTrace
  | 0, attempt => ⟨none, attempt, []⟩
  | remaining + 1, attempt =>
    match client attempt with
    | .success text => ⟨some text, attempt + 1, []⟩
    | .rateLimit true => ⟨none, attempt + 1, []⟩
    | .rateLimit false =>
      if attempt < max_retries - 1 then
        let rest := transcribe_loop client max_retries remaining (attempt + 1)
        ⟨rest.result, rest.attempts, (attempt + 1) * 60 :: rest.sleeps⟩
      else
        ⟨none, attempt + 1, []⟩
    | .error =>
      if attempt < max_retries - 1 then
        let rest := transcribe_loop client max_retries remaining (attempt + 1)
        ⟨rest.result, rest.attempts, 5 :: rest.sleeps⟩
      else
        ⟨none, attempt + 1, []⟩

/-- `transcribe_audio` (src lines 109-151): run the retry loop from
`attempt = 0` with `max_retries` iterations available.  `client k` is the
outcome the external API would give to the `k`-th call (0-indexed). -/
def transcribe_audio (client : Nat → APIResult) (max_retries : Nat) :
    TranscribeTrace :=
  transcribe_loop client max_retries max_retries 0

/-- The transcript file name derived from an audio file's stem in `main`:
`transcripts_path / f"{mp3_file.stem}.txt"` (the directory is fixed, so only
the file name is modelled). -/
def transcript_name (stem : String) : String := stem ++ ".txt"

/-- What happened to one audio file in the transcription loop of `main`:
its transcript already existed (skip, no API call), `transcribe_audio`
returned truthy text (persisted and counted), or it returned `None` or `""`
(the `else` branch at src line 240). -/
inductive ItemEvent where
  | already_exists
  | success
  | failure
deriving DecidableEq

/-- State threaded through the transcription loop of `main` (src lines
216-242): the transcripts directory as a map from file name to content,
the two counters, and the list of stems submitted to `transcribe_audio`
(in order) — the record of API usage. -/
structure TranscriptionState where
  transcripts : String → Option String
  transcribed_count : Nat
  skipped_count : Nat
  calls : List String

/-- One iteration of the transcription loop (src lines 219-242) on the file
with stem `stem`, at 1-based position `i` of `total` files.  Returns the new
state, the item's event, and whether `time.sleep(args.delay)` ran afterwards
(the source sleeps only in the success branch, and only `if i < len(all_mp3_files)`).
Python's `if text:` makes the empty string fall into the failure branch. -/
def process_one (transcribe : String → Option String) (total i : Nat)
    (stem : String) (s : TranscriptionState) :
    TranscriptionState × ItemEvent × Bool :=
  if (s.transcripts (transcript_name stem)).isSome then
    (⟨s.transcripts, s.transcribed_count, s.skipped_count + 1, s.calls⟩,
      ItemEvent.already_exists, false)
  else
    match transcribe stem with
    | some text =>
      if text = "" then
        (⟨s.transcripts, s.transcribed_count, s.skipped_count + 1,
            s.calls ++ [stem]⟩,
          ItemEvent.failure, false)
      else
        (⟨fun n => if n = transcript_name stem then some text else s.transcripts n,
            s.transcribed_count + 1, s.skipped_count, s.calls ++ [stem]⟩,
          ItemEvent.success, decide (i < total))
    | none =>
      (⟨s.transcripts, s.transcribed_count, s.skipped_count + 1,
          s.calls ++ [stem]⟩,
        ItemEvent.failure, false)

/-- The transcription loop `for i, mp3_file in enumerate(all_mp3_files, 1)`
over the remaining stems, starting at position `i`.  Besides the final state
it returns the event log (position paired with event, in order) and the
positions after which the inter-item delay was slept. -/
def process_files (transcribe : String → Option String) (total : Nat) :
    Nat → List String → TranscriptionState →
      TranscriptionState × List (Nat × ItemEvent) × List Nat
  | _, [], s => (s, [], [])
  | i, stem :: rest, s =>
    let step := process_one transcribe total i stem s
    let r := process_files transcribe total (i + 1) rest step.1
    (r.1, (i, step.2.1) :: r.2.1, (if step.2.2 then [i] else []) ++ r.2.2)

/-- The state at the top of the transcription phase: the transcripts
directory as found on disk (`existing`), counters at 0, no API calls yet. -/
def initial_state (existing : String → Option String) : TranscriptionState :=
  ⟨existing, 0, 0, []⟩

/-- The whole transcription phase of `main` (src lines 214-242):
`all_mp3_files` are the stems of the sorted `downloads_path.glob("*.mp3")`
listing, `existing` the transcripts directory, `transcribe stem` the value
`transcribe_audio` returns for that file under the run's client. -/
def run_transcription (transcribe existing : String → Option String)
    (all_mp3_files : List String) :
    TranscriptionState × List (Nat × ItemEvent) × List Nat :=
  process_files transcribe all_mp3_files.length 1 all_mp3_files
    (initial_state existing)

/-- The completion summary printed at src lines 245-249.  `failed` is printed
as `len(all_mp3_files) - transcribed_count - skipped_count`, a Python `int`
expression, hence `Int` here. -/
structure Summary where
  total : Nat
  transcribed : Nat
  skipped : Nat
  failed : Int
deriving DecidableEq

/-- Build the printed summary from a run of the transcription phase. -/
def completion_summary (transcribe existing : String → Option String)
    (all_mp3_files : List String) : Summary :=
  let fin := (run_transcription transcribe existing all_mp3_files).1
  ⟨all_mp3_files.length, fin.transcribed_count, fin.skipped_count,
    (all_mp3_files.length : Int) - fin.transcribed_count - fin.skipped_count⟩

/-! ## Theorems -/

/-- Claim C10: the size-ceiling comparison is strict — a file of exactly
`25 * 1024 * 1024` bytes passes `check_file_size` (returns `true`), and a
file is reported too large (returns `false`) exactly when it is strictly
larger than the ceiling. -/
theorem size_ceiling_strict :
    check_file_size (25 * 1024 * 1024) default_max_size_mb = true
    ∧ ∀ st_size : Nat,
        (check_file_size st_size default_max_size_mb = false
          ↔ 25 * 1024 * 1024 < st_size) := by
  constructor
  · rfl
  · intro n
    unfold check_file_size default_max_size_mb
    split <;> simp_all

/-- Claim C8: on a successful download that produced a new file, the fetcher
runs the 25 MB size check and records its result, but returns the new file as
the produced asset regardless of that result (the size is universally
quantified, so this covers oversized files). -/
theorem oversized_file_not_rejected (new_file : Mp3File) (rest : List Mp3File) :
    (download_audio_if_needed true (new_file :: rest)).1 = some new_file
    ∧ (download_audio_if_needed true (new_file :: rest)).2
        = some (check_file_size new_file.st_size default_max_size_mb) :=
  ⟨rfl, rfl⟩

/-- Claim C7: metadata with no entries but a truthy single-item identifier
resolves to the one-element list holding the original URL; metadata with
entries resolves to the entry identifiers rewritten into canonical watch
URLs. -/
theorem single_video_and_playlist_paths (url : String) (data : PlaylistData) :
    (data.entries = [] → id_truthy data.id = true →
        get_video_list url data = [url])
    ∧ (data.entries ≠ [] →
        get_video_list url data
          = data.entries.map (fun entry => watch_url entry.id)) := by
  constructor
  · intro he hid
    simp [get_video_list, he, hid]
  · intro he
    have hne : data.entries.isEmpty = false := by
      simpa [List.isEmpty_iff] using he
    simp [get_video_list, hne]

/-- Witness for C7 at concrete metadata: a single-video object and a
two-entry playlist object. -/
theorem single_video_and_playlist_paths_witness :
    get_video_list "u" ⟨[], some "abc"⟩ = ["u"]
    ∧ get_video_list "u" ⟨[⟨"x", none⟩, ⟨"y", none⟩], none⟩
        = ["https://www.youtube.com/watch?v=x",
           "https://www.youtube.com/watch?v=y"] := by
  constructor
  · exact (single_video_and_playlist_paths "u" ⟨[], some "abc"⟩).1 rfl rfl
  · have h := (single_video_and_playlist_paths "u"
      ⟨[⟨"x", none⟩, ⟨"y", none⟩], none⟩).2 (by simp)
    simpa [watch_url] using h

/-- In the retry loop, a collaborator that reports only transient (non-quota)
failures yields an absent result after exactly `max_retries` calls; stated for
every loop position satisfying the loop invariant
`remaining + attempt = max_retries`. -/
theorem transcribe_loop_all_transient (client : Nat → APIResult)
    (hc : ∀ k, client k = APIResult.rateLimit false ∨ client k = APIResult.error)
    (max_retries : Nat) :
    ∀ remaining attempt, remaining + attempt = max_retries →
      (transcribe_loop client max_retries remaining attempt).result = none
      ∧ (transcribe_loop client max_retries remaining attempt).attempts
          = max_retries := by
  intro remaining
  induction remaining with
  | zero =>
    intro attempt h
    simpa [transcribe_loop] using h
  | succ n ih =>
    intro attempt h
    rcases hc attempt with h1 | h1 <;>
    · simp only [transcribe_loop, h1]
      by_cases hlt : attempt < max_retries - 1
      · simpa [hlt] using ih (attempt + 1) (by omega)
      · simp only [if_neg hlt]
        exact ⟨trivial, by omega⟩

/-- Claim C2: against a collaborator that reports a transient (non-quota)
failure on every call, `transcribe_audio` makes exactly `max_retries`
attempts and then returns an absent result — never more, never fewer. -/
theorem retry_ceiling_respected (client : Nat → APIResult)
    (hc : ∀ k, client k = APIResult.rateLimit false ∨ client k = APIResult.error)
    (max_retries : Nat) :
    (transcribe_audio client max_retries).result = none
    ∧ (transcribe_audio client max_retries).attempts = max_retries :=
  transcribe_loop_all_transient client hc max_retries max_retries 0 (by omega)

/-- Witness for C2 at the default `max_retries = 3` against an
always-rate-limited (non-quota) collaborator. -/
theorem retry_ceiling_respected_witness :
    (transcribe_audio (fun _ => APIResult.rateLimit false) default_max_retries).result
        = none
    ∧ (transcribe_audio (fun _ => APIResult.rateLimit false) default_max_retries).attempts
        = default_max_retries :=
  retry_ceiling_respected (fun _ => APIResult.rateLimit false)
    (fun _ => Or.inl rfl) default_max_retries

/-- Claim C3: if the collaborator reports quota exhaustion (the
insufficient-quota sub-kind of a rate-limit error) on the first call,
`transcribe_audio` returns an absent result after exactly one attempt, with
no retry and no backoff sleep. -/
theorem quota_short_circuit (client : Nat → APIResult) (max_retries : Nat)
    (hpos : 1 ≤ max_retries) (hq : client 0 = APIResult.rateLimit true) :
    transcribe_audio client max_retries
      = { result := none, attempts := 1, sleeps := [] } := by
  obtain ⟨r, rfl⟩ : ∃ r, max_retries = r + 1 := ⟨max_retries - 1, by omega⟩
  simp [transcribe_audio, transcribe_loop, hq]

/-- Witness for C3 at the default `max_retries = 3` against a collaborator
that reports quota exhaustion immediately. -/
theorem quota_short_circuit_witness :
    transcribe_audio (fun _ => APIResult.rateLimit true) default_max_retries
      = { result := none, attempts := 1, sleeps := [] } :=
  quota_short_circuit (fun _ => APIResult.rateLimit true) default_max_retries
    (by decide) rfl

/-- Each iteration of the transcription loop increments exactly one of the
two counters by exactly one. -/
theorem process_one_counts (t : String → Option String) (total i : Nat)
    (stem : String) (s : TranscriptionState) :
    (process_one t total i stem s).1.transcribed_count
        + (process_one t total i stem s).1.skipped_count
      = s.transcribed_count + s.skipped_count + 1 := by
  unfold process_one
  by_cases hex : (s.transcripts (transcript_name stem)).isSome
  · simp [hex]; omega
  · cases ht : t stem with
    | none => simp [hex, ht]; omega
    | some text =>
      by_cases he : text = "" <;> simp [hex, ht, he] <;> omega

/-- The delay is slept after an item exactly when that item was successfully
transcribed and it is not at the last position. -/
theorem process_one_event_sleep (t : String → Option String) (total i : Nat)
    (stem : String) (s : TranscriptionState) :
    (process_one t total i stem s).2.2 = true
      ↔ ((process_one t total i stem s).2.1 = ItemEvent.success ∧ i < total) := by
  unfold process_one
  by_cases hex : (s.transcripts (transcript_name stem)).isSome
  · simp [hex]
  · cases ht : t stem with
    | none => simp [hex, ht]
    | some text =>
      by_cases he : text = "" <;> simp [hex, ht, he]

/-- Processing any item leaves an already-present transcript file untouched
and never adds its stem to the list of API calls. -/
theorem process_one_preserves (t : String → Option String) (total i : Nat)
    (stem stem2 : String) (s : TranscriptionState)
    (h : (s.transcripts (transcript_name stem)).isSome = true) :
    (process_one t total i stem2 s).1.transcripts (transcript_name stem)
        = s.transcripts (transcript_name stem)
    ∧ (stem ∈ (process_one t total i stem2 s).1.calls ↔ stem ∈ s.calls) := by
  unfold process_one
  by_cases hex : (s.transcripts (transcript_name stem2)).isSome
  · simp [hex]
  · have hne : stem ≠ stem2 := by
      intro e; rw [e] at h; simp [h] at hex
    have hne2 : transcript_name stem ≠ transcript_name stem2 := by
      intro e; rw [e] at h; simp [h] at hex
    cases ht : t stem2 with
    | none => simp [hex, ht, hne]
    | some text =>
      by_cases he : text = "" <;> simp [hex, ht, he, hne, hne2]

/-- Whole-loop version of `process_one_preserves`: a transcript file present
at some state stays untouched for the rest of the loop, and the stem is
submitted to the transcriber during the rest of the loop only if it already
was before. -/
theorem process_files_preserves (t : String → Option String) (total : Nat)
    (stem : String) :
    ∀ (l : List String) (i : Nat) (s : TranscriptionState),
      (s.transcripts (transcript_name stem)).isSome = true →
      (process_files t total i l s).1.transcripts (transcript_name stem)
          = s.transcripts (transcript_name stem)
      ∧ (stem ∈ (process_files t total i l s).1.calls ↔ stem ∈ s.calls) := by
  intro l
  induction l with
  | nil => intro i s h; simp [process_files]
  | cons a rest ih =>
    intro i s h
    obtain ⟨h1, h2⟩ := process_one_preserves t total i stem a s h
    have h' : ((process_one t total i a s).1.transcripts
        (transcript_name stem)).isSome = true := by
      rw [h1]; exact h
    obtain ⟨g1, g2⟩ := ih (i + 1) (process_one t total i a s).1 h'
    simp only [process_files]
    exact ⟨g1.trans h1, g2.trans h2⟩

/-- Counter invariant over the rest of the loop: the two counters together
grow by exactly the number of items processed. -/
theorem process_files_counts (t : String → Option String) (total : Nat) :
    ∀ (l : List String) (i : Nat) (s : TranscriptionState),
      (process_files t total i l s).1.transcribed_count
          + (process_files t total i l s).1.skipped_count
        = s.transcribed_count + s.skipped_count + l.length := by
  intro l
  induction l with
  | nil => intro i s; simp [process_files]
  | cons a rest ih =>
    intro i s
    have h1 := process_one_counts t total i a s
    have h2 := ih (i + 1) (process_one t total i a s).1
    simp only [process_files, List.length_cons]
    omega

/-- Every position in the event log is at least the starting position. -/
theorem process_files_pos (t : String → Option String) (total : Nat) :
    ∀ (l : List String) (i : Nat) (s : TranscriptionState) (j : Nat)
      (e : ItemEvent),
      (j, e) ∈ (process_files t total i l s).2.1 → i ≤ j := by
  intro l
  induction l with
  | nil => intro i s j e h; simp [process_files] at h
  | cons a rest ih =>
    intro i s j e h
    simp only [process_files, List.mem_cons, Prod.mk.injEq] at h
    rcases h with ⟨hj, _⟩ | h
    · omega
    · have := ih (i + 1) _ j e h
      omega

/-- Each position carries exactly one event. -/
theorem process_files_event_unique (t : String → Option String) (total : Nat) :
    ∀ (l : List String) (i : Nat) (s : TranscriptionState) (j : Nat)
      (e e' : ItemEvent),
      (j, e) ∈ (process_files t total i l s).2.1 →
      (j, e') ∈ (process_files t total i l s).2.1 → e = e' := by
  intro l
  induction l with
  | nil => intro i s j e e' h _; simp [process_files] at h
  | cons a rest ih =>
    intro i s j e e' h h'
    simp only [process_files, List.mem_cons, Prod.mk.injEq] at h h'
    rcases h with ⟨hj, he⟩ | h
    · rcases h' with ⟨hj', he'⟩ | h'
      · rw [he, he']
      · have := process_files_pos t total rest (i + 1) _ j e' h'
        omega
    · rcases h' with ⟨hj', he'⟩ | h'
      · have := process_files_pos t total rest (i + 1) _ j e h
        omega
      · exact ih (i + 1) _ j e e' h h'

/-- A sleep is recorded at position `j` exactly when the item at `j` was
successfully transcribed and `j` is not the last position. -/
theorem process_files_sleep_iff (t : String → Option String) (total : Nat) :
    ∀ (l : List String) (i : Nat) (s : TranscriptionState) (j : Nat),
      j ∈ (process_files t total i l s).2.2
        ↔ ((j, ItemEvent.success) ∈ (process_files t total i l s).2.1
            ∧ j < total) := by
  intro l
  induction l with
  | nil => intro i s j; simp [process_files]
  | cons a rest ih =>
    intro i s j
    simp only [process_files, List.mem_append, List.mem_cons, Prod.mk.injEq]
    constructor
    · intro h
      rcases h with h | h
      · by_cases hs : (process_one t total i a s).2.2 = true
        · rw [if_pos hs] at h
          simp only [List.mem_singleton] at h
          obtain ⟨hev, hlt⟩ := (process_one_event_sleep t total i a s).mp hs
          subst h
          exact ⟨Or.inl ⟨rfl, hev.symm⟩, hlt⟩
        · rw [if_neg hs] at h
          simp at h
      · obtain ⟨h1, h2⟩ := (ih (i + 1) _ j).mp h
        exact ⟨Or.inr h1, h2⟩
    · intro h
      obtain ⟨h, hlt⟩ := h
      rcases h with ⟨hj, hev⟩ | h
      · left
        have hs : (process_one t total i a s).2.2 = true :=
          (process_one_event_sleep t total i a s).mpr ⟨hev.symm, by omega⟩
        rw [if_pos hs]
        simp [hj]
      · right
        exact (ih (i + 1) _ j).mpr ⟨h, hlt⟩

/-- Claim C4: the inter-call delay is slept after position `j` exactly when
the item at `j` was successfully transcribed and `j` is not the last
position; in particular it is never slept after an item that was skipped
(transcript already present), never after an item whose transcription
failed, and never after the final item of the list. -/
theorem pacing_only_after_success (transcribe existing : String → Option String)
    (files : List String) (j : Nat) :
    (j ∈ (run_transcription transcribe existing files).2.2
      ↔ ((j, ItemEvent.success) ∈ (run_transcription transcribe existing files).2.1
          ∧ j < files.length))
    ∧ ((j, ItemEvent.already_exists)
          ∈ (run_transcription transcribe existing files).2.1 →
        j ∉ (run_transcription transcribe existing files).2.2)
    ∧ ((j, ItemEvent.failure)
          ∈ (run_transcription transcribe existing files).2.1 →
        j ∉ (run_transcription transcribe existing files).2.2)
    ∧ files.length ∉ (run_transcription transcribe existing files).2.2 := by
  have hiff := process_files_sleep_iff transcribe files.length files 1
    (initial_state existing)
  refine ⟨hiff j, ?_, ?_, ?_⟩
  · intro hev hm
    have hsucc := ((hiff j).mp hm).1
    have := process_files_event_unique transcribe files.length files 1
      (initial_state existing) j ItemEvent.already_exists ItemEvent.success
      hev hsucc
    simp at this
  · intro hev hm
    have hsucc := ((hiff j).mp hm).1
    have := process_files_event_unique transcribe files.length files 1
      (initial_state existing) j ItemEvent.failure ItemEvent.success
      hev hsucc
    simp at this
  · intro hm
    have := ((hiff files.length).mp hm).2
    omega

/-- Witness for C4 at a concrete run of two files that both transcribe
successfully: the delay runs after item 1 and not after the final item 2. -/
theorem pacing_only_after_success_witness :
    1 ∈ (run_transcription (fun s => some ("T" ++ s)) (fun _ => none)
          ["a", "b"]).2.2
    ∧ 2 ∉ (run_transcription (fun s => some ("T" ++ s)) (fun _ => none)
          ["a", "b"]).2.2 := by
  have h1 := pacing_only_after_success (fun s => some ("T" ++ s))
    (fun _ => none) ["a", "b"] 1
  have h2 := pacing_only_after_success (fun s => some ("T" ++ s))
    (fun _ => none) ["a", "b"] 2
  exact ⟨h1.1.mpr ⟨by decide, by decide⟩, by simpa using h2.2.2.2⟩

/-- Claim C5: in the printed completion summary, transcribed + skipped +
failed equals the total number of audio files discovered, the summary fields
are exactly the loop's counters (failed being printed as their difference
from the total), and the two counters themselves already sum to the total. -/
theorem counts_reconcile (transcribe existing : String → Option String)
    (files : List String) :
    ((completion_summary transcribe existing files).transcribed : Int)
        + (completion_summary transcribe existing files).skipped
        + (completion_summary transcribe existing files).failed
      = (completion_summary transcribe existing files).total
    ∧ (completion_summary transcribe existing files).total = files.length
    ∧ (completion_summary transcribe existing files).transcribed
        = (run_transcription transcribe existing files).1.transcribed_count
    ∧ (completion_summary transcribe existing files).skipped
        = (run_transcription transcribe existing files).1.skipped_count
    ∧ (completion_summary transcribe existing files).transcribed
        + (completion_summary transcribe existing files).skipped
      = (completion_summary transcribe existing files).total := by
  have hc := process_files_counts transcribe files.length files 1
    (initial_state existing)
  simp only [initial_state] at hc
  refine ⟨?_, rfl, rfl, rfl, ?_⟩
  · simp only [completion_summary]
    omega
  · simp only [completion_summary, run_transcription, initial_state] at hc ⊢
    omega

/-- Claim C9 (implicit): the printed `Failed` value is always zero, because
each loop iteration increments exactly one of the transcribed and skipped
counters (a returned absent result increments the skipped counter), and the
printed value is the total minus those two counters. -/
theorem printed_failed_always_zero (transcribe existing : String → Option String)
    (files : List String) :
    (completion_summary transcribe existing files).failed = 0
    ∧ ∀ (total i : Nat) (stem : String) (s : TranscriptionState),
        (process_one transcribe total i stem s).1.transcribed_count
            + (process_one transcribe total i stem s).1.skipped_count
          = s.transcribed_count + s.skipped_count + 1 := by
  constructor
  · have hc := process_files_counts transcribe files.length files 1
      (initial_state existing)
    simp only [completion_summary, run_transcription, initial_state] at hc ⊢
    omega
  · intro total i stem s
    exact process_one_counts transcribe total i stem s

/-- Claim C1, evaluated at its failing input: one audio file `a` with no
existing transcript, and a transcriber that returns an absent result.  The
code increments `skipped_count` — the printed summary is skipped = 1,
failed = 0 — while the claim (and spec §4.4 step 5) says the item is counted
as failed. -/
theorem absent_result_counted_in_skipped :
    completion_summary (fun _ => none) (fun _ => none) ["a"]
      = { total := 1, transcribed := 0, skipped := 1, failed := 0 } := by
  rfl

/-- Claim C6: if the derived transcript file (same stem, `.txt` extension)
already exists at the start of the run, the whole run never submits that
item to the transcriber and leaves the existing transcript content
unchanged; and processing such an item does exactly one thing — increment
the skipped counter by one (no call, no write, no sleep), unconditionally,
with no content validation. -/
theorem idempotent_resume (transcribe existing : String → Option String)
    (files : List String) (stem : String)
    (h : (existing (transcript_name stem)).isSome = true) :
    (run_transcription transcribe existing files).1.transcripts
        (transcript_name stem)
      = existing (transcript_name stem)
    ∧ stem ∉ (run_transcription transcribe existing files).1.calls
    ∧ ∀ (total i : Nat) (s : TranscriptionState),
        (s.transcripts (transcript_name stem)).isSome = true →
        process_one transcribe total i stem s
          = (⟨s.transcripts, s.transcribed_count, s.skipped_count + 1, s.calls⟩,
              ItemEvent.already_exists, false) := by
  obtain ⟨g1, g2⟩ := process_files_preserves transcribe files.length stem files 1
    (initial_state existing) h
  refine ⟨g1, ?_, ?_⟩
  · intro hm
    have := g2.mp hm
    simp [initial_state] at this
  · intro total i s hs
    unfold process_one
    simp [hs]

/-- Witness for C6: a transcript for stem `a` is on disk, the run covers
files `a` and `b`, and the transcriber would return text; the run keeps the
old content for `a` and never calls the transcriber on `a`. -/
theorem idempotent_resume_witness :
    (run_transcription (fun _ => some "new")
        (fun n => if n = transcript_name "a" then some "old" else none)
        ["a", "b"]).1.transcripts (transcript_name "a")
      = some "old"
    ∧ "a" ∉ (run_transcription (fun _ => some "new")
        (fun n => if n = transcript_name "a" then some "old" else none)
        ["a", "b"]).1.calls := by
  have h := idempotent_resume (fun _ => some "new")
    (fun n => if n = transcript_name "a" then some "old" else none)
    ["a", "b"] "a" (by simp)
  exact ⟨by simpa using h.1, h.2.1⟩

end YoutubeTranscriber
